import Mathlib

/-!
Shallow embedding of the yt-dlp resolver microservice (src/unnamed/part_006,
the complete revision of src/index.js) together with proofs about the
behaviour its specification describes: format normalization, merged-MP4
selection, URL TTL computation, the auth-wall retry of the resolver invoker,
the multi-client single-URL fallback, the concurrency gate, identifier
validation, cache-key construction, and the in-flight coalescing discipline.

JavaScript data is modelled with `Option`-valued record fields (a missing or
`undefined`/`null` field is `none`), and the JS truthiness conventions that
the source relies on (empty string and the number 0 are falsy) are made
explicit through small helper functions.  JS `Array.prototype.sort` is
required to be stable, so `.sort(cmp)` is modelled by the stable
`List.insertionSort`.  All definitions are structurally recursive so that
concrete runs reduce inside the kernel.
-/

namespace YtSvc

/-- JS `a || b` on optional strings: `none` and the empty string are falsy. -/
def jsOrStr (a b : Option String) : Option String :=
  match a with
  | some s => if s = "" then b else some s
  | none => b

/-- JS `a || b` on optional numbers: `none` and 0 are falsy. -/
def jsOrNat (a b : Option Nat) : Option Nat :=
  match a with
  | some n => if n = 0 then b else some n
  | none => b

/-- JS truthiness of an optional string value. -/
def jsTruthyOptStr : Option String → Bool
  | some s => s != ""
  | none => false

/-- JS truthiness of an optional numeric value. -/
def jsTruthyOptNat : Option Nat → Bool
  | some n => n != 0
  | none => false

/-- JS `opt || d` producing a string, as in `f?.ext || "m4a"`. -/
def jsStrGetD (a : Option String) (d : String) : String :=
  match a with
  | some s => if s = "" then d else s
  | none => d

/-- Structural prefix test on character lists. -/
def isPrefixChars : List Char → List Char → Bool
  | [], _ => true
  | _ :: _, [] => false
  | a :: pa, b :: lb => a == b && isPrefixChars pa lb

/-- Decidable substring test on character lists (JS `String.prototype.includes`). -/
def containsSub : List Char → List Char → Bool
  | l, pat =>
    if isPrefixChars pat l then true
    else
      match l with
      | [] => false
      | _ :: t => containsSub t pat

/-- JS `s.includes(pat)`. -/
def strContains (s pat : String) : Bool := containsSub s.data pat.data

/-- Split a character list on a non-empty separator; `fuel` bounds the
recursion and any `fuel ≥ l.length` gives the JS `String.prototype.split`
behaviour. -/
def splitChars (sep : List Char) : Nat → List Char → List (List Char)
  | _, [] => [[]]
  | 0, l => [l]
  | Nat.succ fuel, l@(c :: t) =>
    if sep ≠ [] && isPrefixChars sep l then
      [] :: splitChars sep fuel (l.drop sep.length)
    else
      match splitChars sep fuel t with
      | [] => [[c]]
      | h :: r => (c :: h) :: r

/-- JS `s.split(sep)` for a non-empty separator string. -/
def strSplitOn (s sep : String) : List String :=
  (splitChars sep.data s.data.length s.data).map String.mk

/-- JS `String.prototype.trim`: strip whitespace from both ends. -/
def strTrim (s : String) : String :=
  String.mk (((s.data.dropWhile Char.isWhitespace).reverse.dropWhile
    Char.isWhitespace).reverse)

/-- One raw yt-dlp format descriptor, as read by the source through optional
chaining; every field the source accesses is optional. -/
structure RawFormat where
  format_id : Option String := none
  ext : Option String := none
  protocol : Option String := none
  height : Option Nat := none
  vcodec : Option String := none
  acodec : Option String := none
  tbr : Option Nat := none
  abr : Option Nat := none
  url : Option String := none
  manifest_url : Option String := none
  hls_manifest_url : Option String := none
  dash_manifest_url : Option String := none
  fragment_base_url : Option String := none
deriving Repr, DecidableEq

/-- The slice of a yt-dlp info document the service reads: `info?.formats`
(plus the `id` the fallback path synthesizes). -/
structure Info where
  id : Option String := none
  formats : Option (List RawFormat) := none
deriving Repr, DecidableEq

/-- JS `Array.isArray(info?.formats) ? info.formats : []`. -/
def infoFormats (i : Info) : List RawFormat := i.formats.getD []

/-- JS `f?.url || f?.manifest_url || f?.hls_manifest_url ||
f?.dash_manifest_url || f?.fragment_base_url || null`. -/
def pickUrl (f : RawFormat) : Option String :=
  jsOrStr f.url (jsOrStr f.manifest_url (jsOrStr f.hls_manifest_url
    (jsOrStr f.dash_manifest_url (jsOrStr f.fragment_base_url none))))

/-- Source `looksLikeHls`: protocol, extension or URL mentions m3u8. -/
def looksLikeHls (url proto ext : Option String) : Bool :=
  (match proto with | some p => strContains p "m3u8" | none => false) ||
  (match ext with | some e => strContains e "m3u8" | none => false) ||
  (match url with | some u => strContains u ".m3u8" | none => false)

/-- Test for the regex `/^sb\d/` used by `isStoryboard`. -/
def startsWithSbDigit (s : String) : Bool :=
  match s.data with
  | 's' :: 'b' :: c :: _ => c.isDigit
  | _ => false

/-- Source `isStoryboard`: mhtml protocol or a `sb<digit>` format id. -/
def isStoryboard (f : RawFormat) : Bool :=
  f.protocol == some "mhtml" || startsWithSbDigit (f.format_id.getD "")

/-- JS `f?.vcodec && f.vcodec !== "none"` (and likewise for acodec):
a present, non-empty codec string different from "none". -/
def hasRealCodec : Option String → Bool
  | some v => v != "" && v != "none"
  | none => false

/-- Normalized video entry produced by `buildFormats` (its object-literal keys
are `format_id, extension, resolution, height, protocol, has_audio, bandwidth,
url`). -/
structure VideoFmt where
  format_id : Option String
  extension : String
  resolution : String
  height : Nat
  protocol : String
  has_audio : Bool
  bandwidth : Option Nat
  url : Option String
deriving Repr, DecidableEq

/-- Normalized audio entry produced by `buildFormats` (keys `format_id,
extension, protocol, bitrate, url`). -/
structure AudioFmt where
  format_id : Option String
  extension : String
  protocol : String
  bitrate : Option Nat
  url : Option String
deriving Repr, DecidableEq

/-- Result shape of `buildFormats`. -/
structure NormalizedResult where
  videoFormats : List VideoFmt
  audioFormats : List AudioFmt
deriving Repr, DecidableEq

/-- Video-candidate filter of `buildFormats`:
`(f?.vcodec && f.vcodec !== "none") || f?.height || f?.manifest_url ||
f?.hls_manifest_url`. -/
def isVideoCandidate (f : RawFormat) : Bool :=
  hasRealCodec f.vcodec || jsTruthyOptNat f.height
    || jsTruthyOptStr f.manifest_url || jsTruthyOptStr f.hls_manifest_url

/-- Audio-candidate filter of `buildFormats`:
`(!f?.vcodec || f?.vcodec === "none") && f?.acodec && f.acodec !== "none"`. -/
def isAudioCandidate (f : RawFormat) : Bool :=
  (!jsTruthyOptStr f.vcodec || f.vcodec == some "none") && hasRealCodec f.acodec

/-- The `.map` stage of the video pipeline in `buildFormats`. -/
def toVideoFmt (f : RawFormat) : VideoFmt :=
  let url := pickUrl f
  let height := f.height.getD 0
  let hls := looksLikeHls url f.protocol f.ext
  { format_id := f.format_id
    extension := jsStrGetD f.ext (if hls then "m3u8" else "mp4")
    resolution := if height != 0 then toString height ++ "p" else "unknown"
    height := height
    protocol := jsStrGetD f.protocol (if hls then "m3u8_native" else "https")
    has_audio := if hls then true else hasRealCodec f.acodec
    bandwidth := jsOrNat f.tbr (jsOrNat f.abr none)
    url := url }

/-- The `.map` stage of the audio pipeline in `buildFormats`. -/
def toAudioFmt (f : RawFormat) : AudioFmt :=
  { format_id := f.format_id
    extension := jsStrGetD f.ext "m4a"
    protocol := jsStrGetD f.protocol "https"
    bitrate := jsOrNat f.abr (jsOrNat f.tbr none)
    url := pickUrl f }

/-- The `.filter((fmt, i, arr) => arr.findIndex(sameKey) === i)` idiom of the
source: keep exactly the first occurrence of each key, in order. -/
def dedupBy {α κ : Type} [DecidableEq κ] (key : α → κ) : List α → List α
  | [] => []
  | a :: l => a :: (dedupBy key l).filter (fun b => key b != key a)

/-- Ascending-height comparison used to sort the video list
(`(a, b) => a.height - b.height`). -/
def videoHeightLe (a b : VideoFmt) : Prop := a.height ≤ b.height

instance : DecidableRel videoHeightLe := fun a b => Nat.decLe a.height b.height

/-- Descending-bitrate comparison used to sort the audio list
(`(a, b) => (b.bitrate || 0) - (a.bitrate || 0)`). -/
def audioBitrateGe (a b : AudioFmt) : Prop := b.bitrate.getD 0 ≤ a.bitrate.getD 0

instance : DecidableRel audioBitrateGe :=
  fun a b => Nat.decLe (b.bitrate.getD 0) (a.bitrate.getD 0)

/-- Source `buildFormats`: the format normalizer. -/
def buildFormats (info : Info) : NormalizedResult :=
  let formats := infoFormats info
  let videoFormats :=
    List.insertionSort videoHeightLe
      (dedupBy (fun fmt => (fmt.resolution, fmt.protocol))
        ((((formats.filter (fun f => !isStoryboard f)).filter isVideoCandidate).map
          toVideoFmt).filter (fun fmt => jsTruthyOptStr fmt.url)))
  let audioFormats :=
    List.insertionSort audioBitrateGe
      (dedupBy (fun fmt => (fmt.bitrate, fmt.protocol))
        ((((formats.filter (fun f => !isStoryboard f)).filter isAudioCandidate).map
          toAudioFmt).filter (fun fmt => jsTruthyOptStr fmt.url)))
  { videoFormats := videoFormats, audioFormats := audioFormats }

/-- Filter of `pickBestMergedMp4`: merged mp4 descriptors with a resolvable
URL, real video and audio codecs and a (truthy) height. -/
def mergedMp4Candidate (f : RawFormat) : Bool :=
  f.ext == some "mp4" && jsTruthyOptStr (pickUrl f)
    && hasRealCodec f.vcodec && hasRealCodec f.acodec && jsTruthyOptNat f.height

/-- Descending-height order on raw descriptors (`(a, b) => b.height - a.height`). -/
def rawHeightGe (a b : RawFormat) : Prop := b.height.getD 0 ≤ a.height.getD 0

instance : DecidableRel rawHeightGe :=
  fun a b => Nat.decLe (b.height.getD 0) (a.height.getD 0)

/-- Ascending-height order on raw descriptors (`(a, b) => a.height - b.height`). -/
def rawHeightLe (a b : RawFormat) : Prop := a.height.getD 0 ≤ b.height.getD 0

instance : DecidableRel rawHeightLe :=
  fun a b => Nat.decLe (a.height.getD 0) (b.height.getD 0)

/-- Source `pickBestMergedMp4`: highest height at or below `maxHeight`,
otherwise lowest height above it, otherwise nothing. -/
def pickBestMergedMp4 (info : Info) (maxHeight : Nat) : Option RawFormat :=
  let formats := infoFormats info
  let merged := formats.filter mergedMp4Candidate
  if merged.isEmpty then none
  else
    match (List.insertionSort rawHeightGe
        (merged.filter (fun f => f.height.getD 0 ≤ maxHeight))).head? with
    | some below => some below
    | none =>
      (List.insertionSort rawHeightLe
        (merged.filter (fun f => maxHeight < f.height.getD 0))).head?

/-! URL TTL computation (`computeUrlTtlSec`, source lines 212-222). -/

/-- Part of `s` before the first occurrence of `sep` (whole string if absent). -/
def beforeFirst (s sep : String) : String :=
  match strSplitOn s sep with
  | [] => ""
  | x :: _ => x

/-- Part of `s` after the first occurrence of `sep`, `none` if absent. -/
def afterFirst (s sep : String) : Option String :=
  match strSplitOn s sep with
  | [] => none
  | [_] => none
  | _ :: rest => some (String.intercalate sep rest)

/-- Modelled platform builtin `new URL(s)` restricted to what
`computeUrlTtlSec` reads from it: the query string.  Parsing succeeds when the
string has an alphabetic scheme followed by `://` and a non-empty remainder;
the fragment is stripped and the part after the first `?` is the query
(empty when there is no `?`).  Percent-decoding is not modelled. -/
def parseUrlQuery (s : String) : Option String :=
  let noFrag := beforeFirst s "#"
  match afterFirst noFrag "://" with
  | none => none
  | some rest =>
    let scheme := beforeFirst noFrag "://"
    if scheme = "" then none
    else if !(scheme.data.all Char.isAlpha) then none
    else if rest = "" then none
    else some ((afterFirst rest "?").getD "")

/-- Split one `k=v` query pair at its first `=` (no `=` gives an empty value). -/
def splitPair (p : String) : String × String :=
  match strSplitOn p "=" with
  | [] => ("", "")
  | k :: rest => (k, String.intercalate "=" rest)

/-- Modelled `u.searchParams.get(name)`: the value of the first pair whose
name matches, `none` when absent. -/
def getParamRaw (query name : String) : Option String :=
  (((strSplitOn query "&").map splitPair).find? (fun kv => kv.1 == name)).map
    (fun kv => kv.2)

/-- Digits-only numeral parser used by `jsNumber`. -/
def parseDigits (cs : List Char) : Option Nat :=
  if cs.isEmpty then none
  else if cs.all Char.isDigit then
    some (cs.foldl (fun n c => n * 10 + (c.toNat - 48)) 0)
  else none

/-- Modelled platform builtin `Number(s)` on integer-valued numeric strings:
trimmed, an empty string is 0, an optional sign followed by digits is the
integer, anything else is NaN (`none`).  Fractional and exponent literals are
not modelled. -/
def jsNumber (s : String) : Option Int :=
  let t := strTrim s
  match t.data with
  | [] => some 0
  | '+' :: rest => (parseDigits rest).map Int.ofNat
  | '-' :: rest => (parseDigits rest).map (fun n => -(n : Int))
  | _ => (parseDigits t.data).map Int.ofNat

/-- The expiry number `computeUrlTtlSec` extracts:
`Number(u.searchParams.get("expire") || u.searchParams.get("Expires"))`,
where `Number(null)` is 0; `none` when the URL does not parse or the value is
NaN. -/
def urlExpireEpoch (urlStr : String) : Option Int :=
  match parseUrlQuery urlStr with
  | none => none
  | some q =>
    match jsOrStr (getParamRaw q "expire") (getParamRaw q "Expires") with
    | none => some 0
    | some v => jsNumber v

/-- Default of the `URL_TTL` environment variable. -/
def URL_TTL_FALLBACK : Int := 300

/-- Source `computeUrlTtlSec` with explicit options and current time (the
source reads `Date.now()`); a URL-constructor throw is the `none` branch. -/
def computeUrlTtlSec (urlStr : String) (now flr cl safety : Int) : Int :=
  match urlExpireEpoch urlStr with
  | some exp =>
    if 0 < exp then max flr (min cl (exp - now - safety)) else URL_TTL_FALLBACK
  | none => URL_TTL_FALLBACK

/-- `computeUrlTtlSec` at its default options `{floor = 30, ceil = 3600,
safety = 30}`, as every call site uses it. -/
def computeUrlTtlSecD (urlStr : String) (now : Int) : Int :=
  computeUrlTtlSec urlStr now 30 3600 30

/-! Identifier validation and cache keys (source lines 205, 494-499,
528-547, 565-576, 601-613). -/

/-- Test of the source regex `YT_ID = /^[\w-]{11}$/` (`\w` is
`[A-Za-z0-9_]`). -/
def YT_ID_test (s : String) : Bool :=
  s.data.length == 11 && s.data.all (fun c => c.isAlphanum || c == '_' || c == '-')

/-- JS `s.replace(/^\$/, "")`: drop one leading dollar sign. -/
def stripLeadingDollar (s : String) : String :=
  match s.data with
  | '$' :: rest => String.mk rest
  | _ => s

/-- The id normalization of the handlers:
`String(req.query.id || "").trim().replace(/^\$/, "")`. -/
def normalizeIdParam (q : Option String) : String :=
  stripLeadingDollar (strTrim (jsStrGetD q ""))

/-- Source `parseClientListParam`: a comma-separated, trimmed, non-empty
client list, or `none`. -/
def parseClientListParam (q : Option String) : Option (List String) :=
  let raw := strTrim (jsStrGetD q "")
  if raw = "" then none
  else
    let arr := ((strSplitOn raw ",").map strTrim).filter (fun s => s != "")
    if arr.isEmpty then none else some arr

/-- The client-override component of a cache key:
`clients ? clients.join("|") + "_" : ""`. -/
def clientsKeyPart : Option (List String) → String
  | some cs => String.intercalate "|" cs ++ "_"
  | none => ""

/-- The common suffix of every cache key:
`${nocookie ? "NC_" : ""}${clients ? clients.join("|") + "_" : ""}${id}`. -/
def cacheKeySuffix (nocookie : Bool) (clients : Option (List String))
    (id : String) : String :=
  (if nocookie then "NC_" else "") ++ clientsKeyPart clients ++ id

/-- Cache and in-flight key of `GET /stream` (also used by `/prewarm`). -/
def mkStreamKey (nocookie : Bool) (clients : Option (List String))
    (id : String) : String :=
  "stream_" ++ cacheKeySuffix nocookie clients id

/-- Cache key of `GET /stream480`. -/
def mkStream480Key (nocookie : Bool) (clients : Option (List String))
    (id : String) : String :=
  "stream480_" ++ cacheKeySuffix nocookie clients id

/-- Cache key of `GET /streamMp4` (includes the clamped max height). -/
def mkMp4Key (maxH : Nat) (nocookie : Bool) (clients : Option (List String))
    (id : String) : String :=
  "mp4_" ++ toString maxH ++ "_" ++ cacheKeySuffix nocookie clients id

/-- Rejections the `/stream` handler can produce before doing any work. -/
inductive Rejection where
  | busy503
  | badRequest400
deriving Repr, DecidableEq

/-- State the `/stream` handler can touch before resolution: the result
cache (keys paired with an abstract stored value), the in-flight key set and
the number of resolver invocations performed so far. -/
structure StreamSrvState where
  cache : List (String × NormalizedResult)
  inflight : List String
  resolverInvocations : Nat
deriving DecidableEq

/-- The front of the `GET /stream` handler (source lines 528-532): the
backpressure check (`rejectIfBusy`, queue length against `MAX_QUEUE`) runs
first, then the id is normalized and validated; only a valid id reaches the
rest of the handler, modelled by the continuation `k`. -/
def streamRequest {A : Type} (maxQueue queueLen : Nat) (st : StreamSrvState)
    (idParam : Option String)
    (k : StreamSrvState → String → StreamSrvState × A) :
    StreamSrvState × Except Rejection A :=
  if maxQueue < queueLen then (st, Except.error Rejection.busy503)
  else
    let id := normalizeIdParam idParam
    if !YT_ID_test id then (st, Except.error Rejection.badRequest400)
    else
      let (st2, a) := k st id
      (st2, Except.ok a)

/-! Resolver invoker: `spawnYtDlpJSON`, `spawnYtDlpBestUrl`,
`spawnBestUrlAnyClient` and the all-probes-failed path of
`fetchInfoMergedFast` (source lines 255-369 and 440-455). -/

/-- Lower-cased character view of a string. -/
def lowerChars (s : String) : List Char := s.data.map Char.toLower

/-- String of lower-cased characters (JS `s.toLowerCase()` on ASCII data). -/
def strToLower (s : String) : String := String.mk (lowerChars s)

/-- Match of the regex fragment `p1.?p2` at the head of `l`: `p1`, then at
most one character (the regex dot excludes newlines), then `p2`. -/
def gapPatternAt (p1 p2 l : List Char) : Bool :=
  isPrefixChars p1 l &&
    (let rest := l.drop p1.length
     isPrefixChars p2 rest ||
       match rest with
       | c :: r2 => c != '\n' && isPrefixChars p2 r2
       | [] => false)

/-- Occurrence of `p1.?p2` anywhere in `l`. -/
def gapPatternSomewhere (p1 p2 : List Char) : List Char → Bool
  | [] => gapPatternAt p1 p2 []
  | l@(_ :: t) => gapPatternAt p1 p2 l || gapPatternSomewhere p1 p2 t

/-- Source `isAuthWallError`: case-insensitive match of
`/Sign in to confirm you.?re not a bot/`, `/This video may be inappropriate/`
or `/account associated/` against the message. -/
def isAuthWallError (msg : String) : Bool :=
  let s := lowerChars msg
  gapPatternSomewhere "sign in to confirm you".data "re not a bot".data s
    || containsSub s "this video may be inappropriate".data
    || containsSub s "account associated".data

/-- Outcome of one child-process execution: either the spawn emitted an
error event, or the child closed with an exit code (`none` models the null
code of a signal-killed child, as after the wall-clock timeout SIGKILL) and
the captured stdout and stderr. -/
inductive ChildRun where
  | spawnError (msg : String)
  | closed (code : Option Int) (stdout : String) (stderr : String)

/-- Error object with the optional `code` side-channel tag the source
attaches (`e.code = "AUTH_REQUIRED"`). -/
structure ErrObj where
  message : String
  code : Option String := none
deriving Repr, DecidableEq

/-- Process-wide configuration plus the behaviour of the external world: the
cookie state, the per-client cookie allow-list, the outcome of each child
execution (as a function of client and of whether the cookies argument was
passed) and the platform `JSON.parse` restricted to the fields the service
reads. -/
structure SpawnEnv where
  hasCookies : Bool
  cookieClients : List String
  execJSON : String → Bool → ChildRun
  execBestUrl : String → Bool → ChildRun
  parseJSON : String → Option Info

/-- Source `willUseCookiesFor`: cookies are passed only when the request
allows them, a jar is materialized, and the client is cookie-scoped. -/
def willUseCookiesFor (env : SpawnEnv) (client : String) (requested : Bool) :
    Bool :=
  requested && env.hasCookies && env.cookieClients.contains (strToLower client)

/-- JS `err.split("\n").slice(-6).join(" ")`: last six stderr lines. -/
def errTail (err : String) : String :=
  let lines := strSplitOn err "\n"
  String.intercalate " " (lines.drop (lines.length - 6))

/-- JS template rendering of a nullable exit code. -/
def jsCodeStr : Option Int → String
  | some n => toString n
  | none => "null"

/-- JS template rendering of a boolean. -/
def jsBoolStr : Bool → String
  | true => "true"
  | false => "false"

/-- The error message built on a failed `-J` run (source line 293). -/
def jsonErrMsg (code : Option Int) (client : String) (allowCookies : Bool)
    (err : String) : String :=
  "yt-dlp exit " ++ jsCodeStr code ++ " [JSON client=" ++ client ++
    " cookies=" ++ jsBoolStr allowCookies ++ "]: " ++ errTail err

/-- The error message built on a failed `-g` run (source line 336). -/
def gErrMsg (code : Option Int) (client : String) (allowCookies : Bool)
    (err : String) : String :=
  "yt-dlp exit " ++ jsCodeStr code ++ " [-g client=" ++ client ++
    " cookies=" ++ jsBoolStr allowCookies ++ "]: " ++ errTail err

/-- Classified outcome of one `close`/`error` event of a `-J` child process
(source lines 289-304).  `authWall` is an auth-wall classified non-zero exit
with empty stdout — the one case the retry branch handles. -/
inductive JsonAttempt where
  | ok (info : Info)
  | err (e : ErrObj)
  | authWall (em : String)
deriving DecidableEq

/-- One `yt-dlp -J` child lifecycle (source lines 281-304), without the
retry decision, which `spawnYtDlpJSON` takes. -/
def jsonAttempt (env : SpawnEnv) (client : String) (allowCookies : Bool) :
    JsonAttempt :=
  match env.execJSON client allowCookies with
  | ChildRun.spawnError m =>
    JsonAttempt.err { message := "yt-dlp spawn error: " ++ m }
  | ChildRun.closed code out err =>
    if out == "" && code != some 0 then
      let em := jsonErrMsg code client allowCookies err
      if isAuthWallError em then JsonAttempt.authWall em
      else JsonAttempt.err { message := em }
    else
      match env.parseJSON out with
      | some info => JsonAttempt.ok info
      | none => JsonAttempt.err { message := "Invalid JSON from yt-dlp" }

/-- Source `spawnYtDlpJSON` together with the trace of the cookie flags of
the child invocations it performs.  The recursive retry of the source
(`spawnYtDlpJSON(url, playerClient, false)`) is unrolled once: the retry
passes `useCookies = false`, under which `willUseCookiesFor` is false, so its
own retry branch is unreachable and an auth-wall failure there surfaces as an
`AUTH_REQUIRED`-coded error. -/
def spawnYtDlpJSON (env : SpawnEnv) (client : String) (useCookies : Bool) :
    Except ErrObj Info × List Bool :=
  let allow := willUseCookiesFor env client useCookies
  match jsonAttempt env client allow with
  | JsonAttempt.ok info => (Except.ok info, [allow])
  | JsonAttempt.err e => (Except.error e, [allow])
  | JsonAttempt.authWall em =>
    if allow then
      let allow2 := willUseCookiesFor env client false
      match jsonAttempt env client allow2 with
      | JsonAttempt.ok info => (Except.ok info, [allow, allow2])
      | JsonAttempt.err e => (Except.error e, [allow, allow2])
      | JsonAttempt.authWall em2 =>
        (Except.error { message := em2, code := some "AUTH_REQUIRED" },
          [allow, allow2])
    else (Except.error { message := em, code := some "AUTH_REQUIRED" }, [allow])

/-- JS `out.trim().split("\n").pop()` of the `-g` success path. -/
def lastLine (out : String) : String :=
  ((strSplitOn (strTrim out) "\n").getLast?).getD ""

/-- Classified outcome of one `-g` child lifecycle. -/
inductive GAttempt where
  | ok (direct : String)
  | err (e : ErrObj)
  | authWall (em : String)
deriving DecidableEq

/-- One `yt-dlp -g` child lifecycle (source lines 324-349), without the
retry decision. -/
def bestUrlAttempt (env : SpawnEnv) (client : String) (allowCookies : Bool) :
    GAttempt :=
  match env.execBestUrl client allowCookies with
  | ChildRun.spawnError m =>
    GAttempt.err { message := "yt-dlp spawn error: " ++ m }
  | ChildRun.closed code out err =>
    if code != some 0 then
      let em := gErrMsg code client allowCookies err
      if isAuthWallError em then GAttempt.authWall em
      else GAttempt.err { message := em }
    else
      let direct := lastLine out
      if direct == "" then
        GAttempt.err { message := "No direct URL from yt-dlp -g" }
      else GAttempt.ok direct

/-- Source `spawnYtDlpBestUrl` with its invocation trace; the one-shot retry
is unrolled exactly as in `spawnYtDlpJSON`. -/
def spawnYtDlpBestUrl (env : SpawnEnv) (client : String) (useCookies : Bool) :
    Except ErrObj String × List Bool :=
  let allow := willUseCookiesFor env client useCookies
  match bestUrlAttempt env client allow with
  | GAttempt.ok direct => (Except.ok direct, [allow])
  | GAttempt.err e => (Except.error e, [allow])
  | GAttempt.authWall em =>
    if allow then
      let allow2 := willUseCookiesFor env client false
      match bestUrlAttempt env client allow2 with
      | GAttempt.ok direct => (Except.ok direct, [allow, allow2])
      | GAttempt.err e => (Except.error e, [allow, allow2])
      | GAttempt.authWall em2 =>
        (Except.error { message := em2, code := some "AUTH_REQUIRED" },
          [allow, allow2])
    else (Except.error { message := em, code := some "AUTH_REQUIRED" }, [allow])

/-- The client loop of `spawnBestUrlAnyClient` (source lines 357-366),
carrying the `authHit` and `lastErr` accumulators. -/
def bestUrlLoop (env : SpawnEnv) (wantCookies : Bool) :
    List String → Bool → Option ErrObj → Except ErrObj (String × String)
  | [], authHit, lastErr =>
    if authHit then
      Except.error { message := "Auth required", code := some "AUTH_REQUIRED" }
    else
      match lastErr with
      | some e => Except.error e
      | none => Except.error { message := "Failed to resolve best URL" }
  | client :: rest, authHit, _lastErr =>
    match (spawnYtDlpBestUrl env client wantCookies).1 with
    | Except.ok direct => Except.ok (direct, client)
    | Except.error e =>
      bestUrlLoop env wantCookies rest
        (authHit || e.code == some "AUTH_REQUIRED") (some e)

/-- `Array.isArray(opts.clients) && opts.clients.length ? opts.clients :
YT_CLIENTS`. -/
def effectiveClients (opt : Option (List String)) (defaults : List String) :
    List String :=
  match opt with
  | some l => if l.isEmpty then defaults else l
  | none => defaults

/-- Source `spawnBestUrlAnyClient` over the effective client list. -/
def spawnBestUrlAnyClient (env : SpawnEnv) (clients : List String)
    (nocookie : Bool) : Except ErrObj (String × String) :=
  bestUrlLoop env (!nocookie) clients false none

/-- One structured-mode probe of `fetchInfoMergedFast` (source lines
431-438): a `-J` call whose result must contain at least one resolvable
locator, otherwise it is a failure for racing purposes. -/
def probeJSON (env : SpawnEnv) (client : String) (wantCookies : Bool) :
    Except ErrObj Info :=
  match (spawnYtDlpJSON env client wantCookies).1 with
  | Except.error e => Except.error e
  | Except.ok info =>
    if (infoFormats info).any (fun f => jsTruthyOptStr (pickUrl f)) then
      Except.ok info
    else Except.error { message := "No usable formats" }

/-- The synthetic single-format info built from a `-g` fallback URL (source
line 447). -/
def mkDirectInfo (id directUrl : String) : Info :=
  { id := some id
    formats := some [{
      format_id := some "best"
      ext := some (if strContains directUrl ".m3u8" then "m3u8" else "mp4")
      protocol := some (if strContains directUrl ".m3u8" then "m3u8" else "https")
      vcodec := some "unknown"
      acodec := some "unknown"
      url := some directUrl }] }

/-- The catch branch of `fetchInfoMergedFast` (source lines 443-454), entered
when every structured-mode probe failed.  The `Promise.any` rejection `e` is
an `AggregateError`, which has no `code` property, so the source test
`e && e.code === "AUTH_REQUIRED"` on it is identically false — modelled by
the literal `false ||` below. -/
def fetchInfoFallback (env : SpawnEnv) (id : String) (clients : List String)
    (nocookie : Bool) : Except ErrObj (Info × String) :=
  match spawnBestUrlAnyClient env clients nocookie with
  | Except.ok (directUrl, gClient) =>
    Except.ok (mkDirectInfo id directUrl, "best-url:" ++ gClient)
  | Except.error eg =>
    let authy := false || (eg.code == some "AUTH_REQUIRED")
    if authy then
      Except.error { message := "Auth required", code := some "AUTH_REQUIRED" }
    else Except.error eg

/-! Concurrency gate (`schedule` / `tick`, source lines 187-202).  The gate
is driven by Node's single cooperative scheduler: starting a queued job runs
its thunk synchronously up to the first await, so `running++` happens inside
the `tick` loop iteration that starts the job, and `running--; tick()` runs
when the job settles.  States are abstracted to the gate-owned data: the
`running` counter, the queue of not-yet-started task ids (arrival order), and
the histories of submitted and admitted task ids. -/

/-- Source `MAX_YTDLP = Math.max(2, Math.min(raw, 8))` where `raw` is the
configured value or twice the vCPU count. -/
def maxYtDlpOf (raw : Nat) : Nat := max 2 (min raw 8)

/-- Gate state. -/
structure GateState where
  running : Nat
  queue : List Nat
  admitted : List Nat
  submitted : List Nat
  nextId : Nat
deriving Repr, DecidableEq

/-- Idle gate. -/
def initGate : GateState :=
  { running := 0, queue := [], admitted := [], submitted := [], nextId := 0 }

/-- Source `tick`: `while (running < MAX_YTDLP && queue.length) { shift and
start }`; each started job synchronously increments `running`.  Returns the
new running count, remaining queue and admission history. -/
def tickGate (maxc : Nat) : Nat → List Nat → List Nat → Nat × List Nat × List Nat
  | running, [], admitted => (running, [], admitted)
  | running, j :: rest, admitted =>
    if running < maxc then tickGate maxc (running + 1) rest (admitted ++ [j])
    else (running, j :: rest, admitted)

/-- Source `schedule`: push the task thunk, then `tick()`. -/
def gateSubmit (maxc : Nat) (s : GateState) : GateState :=
  let t := tickGate maxc s.running (s.queue ++ [s.nextId]) s.admitted
  { running := t.1, queue := t.2.1, admitted := t.2.2,
    submitted := s.submitted ++ [s.nextId], nextId := s.nextId + 1 }

/-- The `finally { running--; tick(); }` of a settling task; enabled only
while some task is running.  The task's success or failure is irrelevant
(both land in the same `finally`). -/
def gateComplete (maxc : Nat) (s : GateState) : Option GateState :=
  if s.running = 0 then none
  else
    let t := tickGate maxc (s.running - 1) s.queue s.admitted
    some { s with running := t.1, queue := t.2.1, admitted := t.2.2 }

/-- Events the gate reacts to. -/
inductive GateEvent where
  | submit
  | complete (ok : Bool)
deriving Repr, DecidableEq

/-- One gate scheduling step. -/
def gateStep (maxc : Nat) (s : GateState) : GateEvent → Option GateState
  | GateEvent.submit => some (gateSubmit maxc s)
  | GateEvent.complete _ok => gateComplete maxc s

/-- Reachability of gate states from the idle gate under any event
interleaving. -/
inductive GateReach (maxc : Nat) : GateState → Prop where
  | init : GateReach maxc initGate
  | step {s s2 : GateState} {e : GateEvent} : GateReach maxc s →
      gateStep maxc s e = some s2 → GateReach maxc s2

/-- A burst of `n` back-to-back submissions (no completions in between). -/
def submitN (maxc : Nat) : Nat → GateState → GateState
  | 0, s => s
  | Nat.succ n, s => submitN maxc n (gateSubmit maxc s)

/-! In-flight coalescer for one key of the `GET /stream` handler (source
lines 538-550).  The model follows the lifecycle of one shared computation
and the callers around it under a nondeterministic cooperative scheduler:
each caller synchronously checks the cache, then the in-flight map, creating
the entry and starting the resolution on a miss; the computation settles once
(populating the cache on success); its `finally` schedules the entry's
deletion on a zero-delay timer, a separate later step; settled values wake
the awaiting callers. -/

/-- Coalescer state for a single cache key. -/
structure CoState where
  cachePopulated : Bool
  inflightPresent : Bool
  started : Bool
  settled : Bool
  deletePending : Bool
  resolutions : Nat
  deletions : Nat
  pendingCallers : Nat
  waiting : Nat
  served : Nat
deriving Repr, DecidableEq

/-- Initial state: `n` callers about to run the handler, nothing cached and
nothing in flight. -/
def coInit (n : Nat) : CoState :=
  { cachePopulated := false, inflightPresent := false, started := false,
    settled := false, deletePending := false, resolutions := 0,
    deletions := 0, pendingCallers := n, waiting := 0, served := 0 }

/-- Scheduling events of the coalescer. -/
inductive CoEvent where
  | callerCheck
  | settle (ok : Bool)
  | deferredDelete
  | resume
deriving Repr, DecidableEq

/-- One scheduling step.  `callerCheck` is the synchronous handler body
(cache hit / join in-flight / create entry and start resolution); `settle`
is the shared computation settling (`cache.set` then the `finally` that
schedules deletion); `deferredDelete` is the zero-delay timer firing
(`inflight.delete`); `resume` is a waiting caller observing the settled
promise. -/
def coStep (s : CoState) : CoEvent → Option CoState
  | CoEvent.callerCheck =>
    match s.pendingCallers with
    | 0 => none
    | Nat.succ m =>
      if s.cachePopulated then
        some { s with pendingCallers := m, served := s.served + 1 }
      else if s.inflightPresent then
        some { s with pendingCallers := m, waiting := s.waiting + 1 }
      else
        some { s with
               pendingCallers := m
               waiting := s.waiting + 1
               inflightPresent := true
               started := true
               resolutions := s.resolutions + 1 }
  | CoEvent.settle ok =>
    if s.started && !s.settled then
      some { s with
             settled := true
             cachePopulated := s.cachePopulated || ok
             deletePending := true }
    else none
  | CoEvent.deferredDelete =>
    if s.deletePending then
      some { s with
             inflightPresent := false
             deletePending := false
             deletions := s.deletions + 1 }
    else none
  | CoEvent.resume =>
    match s.waiting with
    | 0 => none
    | Nat.succ m =>
      if s.settled then some { s with waiting := m, served := s.served + 1 }
      else none

/-- Run a concrete event sequence (`none` if some event is not enabled). -/
def coExec (s : CoState) : List CoEvent → Option CoState
  | [] => some s
  | e :: es =>
    match coStep s e with
    | some s2 => coExec s2 es
    | none => none

/-- Reachability of coalescer states. -/
inductive CoReach (n : Nat) : CoState → Prop where
  | init : CoReach n (coInit n)
  | step {s s2 : CoState} {e : CoEvent} : CoReach n s → coStep s e = some s2 →
      CoReach n s2

/-! Concrete sample data used by witnesses and counterexamples. -/

/-- A merged mp4 descriptor of the given height. -/
def sampleMp4 (h : Nat) : RawFormat :=
  { ext := some "mp4", url := some ("u" ++ toString h), vcodec := some "avc1",
    acodec := some "mp4a", height := some h }

/-- The `[{height:360},{height:480},{height:720}]` example of the spec. -/
def sampleInfo3 : Info := { formats := some [sampleMp4 360, sampleMp4 480, sampleMp4 720] }

/-- A raw audio-only descriptor. -/
def sampleAudioRaw : RawFormat :=
  { format_id := some "140", ext := some "m4a", protocol := some "https",
    vcodec := some "none", acodec := some "mp4a.40.2", abr := some 128,
    url := some "https://a.example/x" }

/-- Info carrying only the audio descriptor above. -/
def sampleAudioInfo : Info := { formats := some [sampleAudioRaw] }

/-- A normalized audio entry re-read through the raw-descriptor accessors:
its object keys are `format_id, extension, protocol, bitrate, url`, so the
raw fields `ext`, `acodec`, `vcodec`, `abr` and `tbr` are all absent. -/
def audioFmtAsRaw (e : AudioFmt) : RawFormat :=
  { format_id := e.format_id, protocol := some e.protocol, url := e.url }

/-- A normalized video entry re-read through the raw-descriptor accessors:
its keys are `format_id, extension, resolution, height, protocol, has_audio,
bandwidth, url`, so the raw fields `ext`, `vcodec`, `acodec`, `tbr`, `abr`
and the manifest URL fields are all absent. -/
def videoFmtAsRaw (v : VideoFmt) : RawFormat :=
  { format_id := v.format_id, height := some v.height,
    protocol := some v.protocol, url := v.url }

/-- An info document whose format array is a re-fed normalized result. -/
def refedInfo (vs : List VideoFmt) (es : List AudioFmt) : Info :=
  { formats := some (vs.map videoFmtAsRaw ++ es.map audioFmtAsRaw) }

/-- Environment for the auth-retry scenario: a cookie-scoped client whose
`-J` runs always fail behind the auth wall. -/
def envAuthRetry : SpawnEnv :=
  { hasCookies := true
    cookieClients := ["web"]
    execJSON := fun _ _ =>
      ChildRun.closed (some 1) "" "Sign in to confirm youre not a bot"
    execBestUrl := fun _ _ =>
      ChildRun.closed (some 1) "" "Sign in to confirm youre not a bot"
    parseJSON := fun _ => none }

/-- Environment for the prober-fallback scenario: cookie-less process whose
`-J` runs fail behind the auth wall while `-g` runs fail with a generic
network error. -/
def envProbeAuth : SpawnEnv :=
  { hasCookies := false
    cookieClients := ["web"]
    execJSON := fun _ _ =>
      ChildRun.closed (some 1) "" "Sign in to confirm youre not a bot"
    execBestUrl := fun _ _ =>
      ChildRun.closed (some 1) "" "network unreachable"
    parseJSON := fun _ => none }

/-- Coalescer state after one caller created the in-flight entry and the
shared computation settled with a failure: the deferred deletion has not
fired yet, so the settled entry is still in the map. -/
def coCexMid : CoState :=
  { cachePopulated := false, inflightPresent := true, started := true,
    settled := true, deletePending := true, resolutions := 1, deletions := 0,
    pendingCallers := 1, waiting := 1, served := 0 }

/-- Coalescer state after a second caller re-checked the map post-settlement
and joined the stale entry. -/
def coCexEnd : CoState :=
  { coCexMid with pendingCallers := 0, waiting := 2 }

/-- Coalescer state after a single caller check from `coInit 2`: one
resolution in flight, not yet settled. -/
def coWitState : CoState :=
  { cachePopulated := false, inflightPresent := true, started := true,
    settled := false, deletePending := false, resolutions := 1, deletions := 0,
    pendingCallers := 1, waiting := 1, served := 0 }

/-- Environment where the first client's `-g` run fails with a generic error
and the second client's run succeeds. -/
def envFallbackMix : SpawnEnv :=
  { hasCookies := false
    cookieClients := ["web"]
    execJSON := fun _ _ => ChildRun.closed (some 1) "" "boom"
    execBestUrl := fun c _ =>
      if c = "tv" then ChildRun.closed (some 1) "" "network unreachable"
      else ChildRun.closed (some 0) "https://cdn.example/video.mp4" ""
    parseJSON := fun _ => none }

/-! Helper lemmas shared by the claim theorems. -/

instance : IsTotal VideoFmt videoHeightLe :=
  ⟨fun a b => Nat.le_total a.height b.height⟩

instance : IsTrans VideoFmt videoHeightLe :=
  ⟨fun _ _ _ h1 h2 => Nat.le_trans h1 h2⟩

instance : IsTotal AudioFmt audioBitrateGe :=
  ⟨fun a b => by simp only [audioBitrateGe]; exact (Nat.le_total _ _).symm⟩

instance : IsTrans AudioFmt audioBitrateGe :=
  ⟨fun _ _ _ h1 h2 => Nat.le_trans h2 h1⟩

instance : IsTotal RawFormat rawHeightGe :=
  ⟨fun a b => by simp only [rawHeightGe]; exact (Nat.le_total _ _).symm⟩

instance : IsTrans RawFormat rawHeightGe :=
  ⟨fun _ _ _ h1 h2 => Nat.le_trans h2 h1⟩

instance : IsTotal RawFormat rawHeightLe :=
  ⟨fun a b => Nat.le_total (a.height.getD 0) (b.height.getD 0)⟩

instance : IsTrans RawFormat rawHeightLe :=
  ⟨fun _ _ _ h1 h2 => Nat.le_trans h1 h2⟩

theorem mem_dedupBy {α κ : Type} [DecidableEq κ] (key : α → κ) :
    ∀ (l : List α) (a : α), a ∈ dedupBy key l → a ∈ l := by
  intro l
  induction l with
  | nil => intro a h; simp [dedupBy] at h
  | cons b t ih =>
    intro a h
    simp only [dedupBy, List.mem_cons] at h
    rcases h with h | h
    · exact h ▸ List.mem_cons_self b t
    · exact List.mem_cons_of_mem b (ih a (List.mem_filter.mp h).1)

theorem pairwise_key_dedupBy {α κ : Type} [DecidableEq κ] (key : α → κ) :
    ∀ l : List α, List.Pairwise (fun a b => key a ≠ key b) (dedupBy key l) := by
  intro l
  induction l with
  | nil => simp [dedupBy]
  | cons b t ih =>
    simp only [dedupBy]
    refine List.Pairwise.cons ?_ (ih.filter _)
    intro a ha hkey
    have := (List.mem_filter.mp ha).2
    rw [bne_iff_ne] at this
    exact this hkey.symm

theorem head_of_ne_nil {α : Type} {l : List α} (h : l ≠ []) :
    ∃ x, l.head? = some x := by
  cases l with
  | nil => exact absurd rfl h
  | cons a t => exact ⟨a, rfl⟩

theorem insertionSort_ne_nil {α : Type} (r : α → α → Prop) [DecidableRel r]
    {l : List α} (h : l ≠ []) : List.insertionSort r l ≠ [] := by
  intro hnil
  have hp := (List.perm_insertionSort r l).symm
  rw [hnil] at hp
  exact h hp.eq_nil

theorem head_insertionSort_best {α : Type} (r : α → α → Prop) [DecidableRel r]
    [IsTotal α r] [IsTrans α r] {l : List α} {x : α}
    (hx : (List.insertionSort r l).head? = some x) :
    x ∈ l ∧ ∀ y ∈ l, r x y := by
  have hperm := List.perm_insertionSort r l
  have hsorted := List.sorted_insertionSort r l
  cases hs : List.insertionSort r l with
  | nil => rw [hs] at hx; simp at hx
  | cons a t =>
    rw [hs] at hx hperm hsorted
    have hax : a = x := by simpa using hx
    subst hax
    constructor
    · exact hperm.mem_iff.mp (List.mem_cons_self a t)
    · intro y hy
      rcases List.mem_cons.mp (hperm.mem_iff.mpr hy) with h | h
      · rw [h]; exact (IsTotal.total a a).elim id id
      · exact (List.sorted_cons.mp hsorted).1 y h

/-! C2: URL TTL computation. -/

/-- C2.  For every URL string whose extracted expiry epoch is a finite
positive number, `computeUrlTtlSec` at its default options returns
`max(30, min(3600, exp - now - 30))`; when no expiry is extractable (URL does
not parse, value is NaN, or is nonpositive) it returns the fixed
`URL_TTL_FALLBACK`; and an expiry 40 seconds in the future yields exactly
30. -/
theorem computeUrlTtlSec_spec (urlStr : String) (now exp : Int) :
    (urlExpireEpoch urlStr = some exp → 0 < exp →
      computeUrlTtlSecD urlStr now = max 30 (min 3600 (exp - now - 30)))
  ∧ (urlExpireEpoch urlStr = none →
      computeUrlTtlSecD urlStr now = URL_TTL_FALLBACK)
  ∧ (urlExpireEpoch urlStr = some exp → exp ≤ 0 →
      computeUrlTtlSecD urlStr now = URL_TTL_FALLBACK)
  ∧ computeUrlTtlSecD "https://r.example/v?expire=1040" 1000 = 30 := by
  refine ⟨?_, ?_, ?_, by decide⟩
  · intro h hpos
    simp [computeUrlTtlSecD, computeUrlTtlSec, h, hpos]
  · intro h
    simp [computeUrlTtlSecD, computeUrlTtlSec, h]
  · intro h hnonpos
    simp [computeUrlTtlSecD, computeUrlTtlSec, h, not_lt.mpr hnonpos]

/-- C2 witness: the general clamp theorem applied at the 40-seconds-ahead
URL. -/
theorem computeUrlTtlSec_spec_witness :
    urlExpireEpoch "https://r.example/v?expire=1040" = some 1040 ∧
    computeUrlTtlSecD "https://r.example/v?expire=1040" 1000 =
      max 30 (min 3600 (1040 - 1000 - 30)) :=
  ⟨by decide,
    (computeUrlTtlSec_spec "https://r.example/v?expire=1040" 1000 1040).1
      (by decide) (by decide)⟩

/-! C3: best merged MP4 selection. -/

/-- C3.  `pickBestMergedMp4` restricts to mp4 descriptors with a resolvable
URL, real video and audio codecs and a (truthy) height; among those it
returns one of maximal height at or below `maxHeight` when possible,
otherwise one of minimal height above `maxHeight`, otherwise none; on
`[{height:360},{height:480},{height:720}]` it returns the 480 entry at
max = 480 and the 360 entry at max = 200. -/
theorem pickBestMergedMp4_spec (info : Info) (maxHeight : Nat) :
    ((∃ f, f ∈ (infoFormats info).filter mergedMp4Candidate ∧
        f.height.getD 0 ≤ maxHeight) →
      ∃ r, pickBestMergedMp4 info maxHeight = some r ∧
        r ∈ (infoFormats info).filter mergedMp4Candidate ∧
        r.height.getD 0 ≤ maxHeight ∧
        ∀ g ∈ (infoFormats info).filter mergedMp4Candidate,
          g.height.getD 0 ≤ maxHeight → g.height.getD 0 ≤ r.height.getD 0)
  ∧ ((∀ f ∈ (infoFormats info).filter mergedMp4Candidate,
        maxHeight < f.height.getD 0) →
      (infoFormats info).filter mergedMp4Candidate ≠ [] →
      ∃ r, pickBestMergedMp4 info maxHeight = some r ∧
        r ∈ (infoFormats info).filter mergedMp4Candidate ∧
        ∀ g ∈ (infoFormats info).filter mergedMp4Candidate,
          r.height.getD 0 ≤ g.height.getD 0)
  ∧ ((infoFormats info).filter mergedMp4Candidate = [] →
      pickBestMergedMp4 info maxHeight = none)
  ∧ pickBestMergedMp4 sampleInfo3 480 = some (sampleMp4 480)
  ∧ pickBestMergedMp4 sampleInfo3 200 = some (sampleMp4 360) := by
  refine ⟨?_, ?_, ?_, by decide, by decide⟩
  · rintro ⟨f, hf, hfle⟩
    have hfb : f ∈ ((infoFormats info).filter mergedMp4Candidate).filter
        (fun g => decide (g.height.getD 0 ≤ maxHeight)) :=
      List.mem_filter.mpr ⟨hf, by simpa using hfle⟩
    have hbne : ((infoFormats info).filter mergedMp4Candidate).filter
        (fun g => decide (g.height.getD 0 ≤ maxHeight)) ≠ [] := by
      intro hnil; rw [hnil] at hfb; exact absurd hfb (List.not_mem_nil f)
    obtain ⟨r, hr⟩ := head_of_ne_nil (insertionSort_ne_nil rawHeightGe hbne)
    obtain ⟨hrmem, hrmax⟩ := head_insertionSort_best rawHeightGe hr
    have hrm := List.mem_filter.mp hrmem
    refine ⟨r, ?_, hrm.1, by simpa using hrm.2, ?_⟩
    · simp only [pickBestMergedMp4]
      rw [if_neg (by
        simp only [List.isEmpty_iff]
        intro hnil; rw [hnil] at hf; exact absurd hf (List.not_mem_nil f)), hr]
    · intro g hg hgle
      exact hrmax g (List.mem_filter.mpr ⟨hg, by simpa using hgle⟩)
  · intro hall hne
    have hbelow : ((infoFormats info).filter mergedMp4Candidate).filter
        (fun g => decide (g.height.getD 0 ≤ maxHeight)) = [] := by
      rw [List.filter_eq_nil_iff]
      intro a ha
      simpa using Nat.not_le.mpr (hall a ha)
    have habove : ((infoFormats info).filter mergedMp4Candidate).filter
        (fun g => decide (maxHeight < g.height.getD 0)) =
        (infoFormats info).filter mergedMp4Candidate := by
      rw [List.filter_eq_self]
      intro a ha
      simpa using hall a ha
    obtain ⟨r, hr⟩ := head_of_ne_nil
      (insertionSort_ne_nil rawHeightLe (habove.symm ▸ hne))
    obtain ⟨hrmem, hrmin⟩ := head_insertionSort_best rawHeightLe hr
    rw [habove] at hrmem
    refine ⟨r, ?_, hrmem, ?_⟩
    · simp only [pickBestMergedMp4]
      rw [if_neg (by simpa [List.isEmpty_iff] using hne), hbelow]
      simpa using hr
    · intro g hg
      exact hrmin g (habove.symm ▸ hg)
  · intro hnil
    simp [pickBestMergedMp4, hnil]

/-- C3 witness: the selection theorem applied at the three-heights sample at
max = 480 and max = 200. -/
theorem pickBestMergedMp4_spec_witness :
    (∃ r, pickBestMergedMp4 sampleInfo3 480 = some r ∧
      r ∈ (infoFormats sampleInfo3).filter mergedMp4Candidate ∧
      r.height.getD 0 ≤ 480 ∧
      ∀ g ∈ (infoFormats sampleInfo3).filter mergedMp4Candidate,
        g.height.getD 0 ≤ 480 → g.height.getD 0 ≤ r.height.getD 0)
  ∧ ∃ r, pickBestMergedMp4 sampleInfo3 200 = some r ∧
      r ∈ (infoFormats sampleInfo3).filter mergedMp4Candidate ∧
      ∀ g ∈ (infoFormats sampleInfo3).filter mergedMp4Candidate,
        r.height.getD 0 ≤ g.height.getD 0 :=
  ⟨(pickBestMergedMp4_spec sampleInfo3 480).1 ⟨sampleMp4 480, by decide, by decide⟩,
    (pickBestMergedMp4_spec sampleInfo3 200).2.1 (by decide) (by decide)⟩

/-! C4: normalizer output invariants. -/

/-- C4.  For every info document, `buildFormats` produces a video list in
which no two entries share the `(resolution, protocol)` pair, sorted
ascending by height, and an audio list in which no two entries share the
`(bitrate, protocol)` pair, sorted descending by bitrate; every entry of
either list carries a non-null URL. -/
theorem buildFormats_invariants (info : Info) :
    List.Pairwise (fun a b : VideoFmt =>
        (a.resolution, a.protocol) ≠ (b.resolution, b.protocol))
      (buildFormats info).videoFormats
  ∧ List.Pairwise (fun a b : VideoFmt => a.height ≤ b.height)
      (buildFormats info).videoFormats
  ∧ List.Pairwise (fun a b : AudioFmt =>
        (a.bitrate, a.protocol) ≠ (b.bitrate, b.protocol))
      (buildFormats info).audioFormats
  ∧ List.Pairwise (fun a b : AudioFmt => b.bitrate.getD 0 ≤ a.bitrate.getD 0)
      (buildFormats info).audioFormats
  ∧ (∀ v ∈ (buildFormats info).videoFormats, v.url ≠ none)
  ∧ (∀ a ∈ (buildFormats info).audioFormats, a.url ≠ none) := by
  refine ⟨?_, ?_, ?_, ?_, ?_, ?_⟩
  · exact ((List.perm_insertionSort videoHeightLe _).pairwise_iff
      (fun h => Ne.symm h)).mpr (pairwise_key_dedupBy _ _)
  · exact List.sorted_insertionSort videoHeightLe _
  · exact ((List.perm_insertionSort audioBitrateGe _).pairwise_iff
      (fun h => Ne.symm h)).mpr (pairwise_key_dedupBy _ _)
  · exact List.sorted_insertionSort audioBitrateGe _
  · intro v hv
    have h1 := (List.perm_insertionSort videoHeightLe _).mem_iff.mp hv
    have h2 := (List.mem_filter.mp (mem_dedupBy _ _ _ h1)).2
    cases hu : v.url with
    | none => rw [hu] at h2; simp [jsTruthyOptStr] at h2
    | some s => simp
  · intro a ha
    have h1 := (List.perm_insertionSort audioBitrateGe _).mem_iff.mp ha
    have h2 := (List.mem_filter.mp (mem_dedupBy _ _ _ h1)).2
    cases hu : a.url with
    | none => rw [hu] at h2; simp [jsTruthyOptStr] at h2
    | some s => simp

/-- C4 witness: the non-null-URL invariant applied to the concrete audio
entry the sample info normalizes to. -/
theorem buildFormats_invariants_witness :
    (AudioFmt.mk (some "140") "m4a" "https" (some 128)
      (some "https://a.example/x")).url ≠ none :=
  (buildFormats_invariants sampleAudioInfo).2.2.2.2.2
    (AudioFmt.mk (some "140") "m4a" "https" (some 128)
      (some "https://a.example/x")) (by decide)

/-! C5: re-normalization. -/

/-- C5 counterexample.  Re-normalizing the normalizer's own output is not a
no-op: the normalized entries expose object keys (`extension`, `bitrate`)
different from the raw accessors (`ext`, `abr`/`tbr`) and carry no codec
fields, so feeding the output of `buildFormats` on a one-element audio info
back through `buildFormats` yields a different result (the audio list
empties). -/
theorem renormalize_not_noop :
    (buildFormats sampleAudioInfo).audioFormats ≠ []
  ∧ buildFormats (refedInfo (buildFormats sampleAudioInfo).videoFormats
      (buildFormats sampleAudioInfo).audioFormats)
      ≠ buildFormats sampleAudioInfo := by
  constructor
  · decide
  · decide

/-- C5 amended.  The dedup half of the claim holds: the video list never
contains two descriptors with the same `(resolution, protocol)` key.  The
idempotence half fails: because normalized entries do not retain the raw
field names or codec information, a second pass through `buildFormats`
always produces an empty audio list from re-fed normalized output. -/
theorem renormalize_amended :
    (∀ info : Info, List.Pairwise (fun a b : VideoFmt =>
        (a.resolution, a.protocol) ≠ (b.resolution, b.protocol))
      (buildFormats info).videoFormats)
  ∧ ∀ (vs : List VideoFmt) (es : List AudioFmt),
      (buildFormats (refedInfo vs es)).audioFormats = [] := by
  constructor
  · intro info
    exact ((List.perm_insertionSort videoHeightLe _).pairwise_iff
      (fun h => Ne.symm h)).mpr (pairwise_key_dedupBy _ _)
  · intro vs es
    have hnone : ∀ f ∈ (vs.map videoFmtAsRaw ++ es.map audioFmtAsRaw),
        isAudioCandidate f = false := by
      intro f hf
      rcases List.mem_append.mp hf with h | h
      · obtain ⟨v, _, rfl⟩ := List.mem_map.mp h
        simp [isAudioCandidate, videoFmtAsRaw, hasRealCodec]
      · obtain ⟨e, _, rfl⟩ := List.mem_map.mp h
        simp [isAudioCandidate, audioFmtAsRaw, hasRealCodec]
    have hfil : ((infoFormats (refedInfo vs es)).filter
          (fun f => !isStoryboard f)).filter isAudioCandidate = [] := by
      rw [List.filter_eq_nil_iff]
      intro a ha
      simp [hnone a (List.mem_filter.mp ha).1]
    simp only [buildFormats, hfil]
    rfl

/-! C9: identifier validation. -/

/-- C9.  An identifier passes `YT_ID` exactly when it is 11 characters
drawn from alphanumerics, `_` and `-`; when the request is not shed for
backpressure and the normalized id fails the test, the `/stream` handler
answers 400 with the state untouched and never reaches the resolution
continuation; and any id handed to the continuation passed the test. -/
theorem idValidation_spec :
    (∀ s : String, YT_ID_test s = true ↔
       (s.data.length = 11 ∧ ∀ c ∈ s.data,
         c.isAlphanum = true ∨ c = '_' ∨ c = '-'))
  ∧ (∀ (A : Type) (maxQueue queueLen : Nat) (st : StreamSrvState)
       (idParam : Option String)
       (k : StreamSrvState → String → StreamSrvState × A),
       queueLen ≤ maxQueue → YT_ID_test (normalizeIdParam idParam) = false →
       streamRequest maxQueue queueLen st idParam k =
         (st, Except.error Rejection.badRequest400))
  ∧ (∀ (maxQueue queueLen : Nat) (st st2 : StreamSrvState)
       (idParam : Option String) (id : String),
       streamRequest maxQueue queueLen st idParam (fun st3 i => (st3, i)) =
         (st2, Except.ok id) → YT_ID_test id = true) := by
  refine ⟨?_, ?_, ?_⟩
  · intro s
    simp [YT_ID_test, List.all_eq_true, or_assoc]
  · intro A maxQueue queueLen st idParam k hq hbad
    simp [streamRequest, Nat.not_lt.mpr hq, hbad]
  · intro maxQueue queueLen st st2 idParam id h
    by_cases hb : maxQueue < queueLen
    · simp [streamRequest, hb] at h
    · by_cases hv : YT_ID_test (normalizeIdParam idParam) = true
      · have : id = normalizeIdParam idParam := by
          simp [streamRequest, hb, hv] at h
          exact h.2.symm
        rw [this]; exact hv
      · simp [streamRequest, hb, Bool.eq_false_iff.mpr hv] at h

/-- C9 witness: a malformed id is rejected with 400 and untouched state. -/
theorem idValidation_spec_witness :
    YT_ID_test (normalizeIdParam (some "bad id!")) = false ∧
    streamRequest 64 0 ⟨[], [], 0⟩ (some "bad id!")
        (fun st3 i => (st3, i)) =
      (⟨[], [], 0⟩, Except.error Rejection.badRequest400) :=
  ⟨by decide,
    idValidation_spec.2.1 String 64 0 ⟨[], [], 0⟩ (some "bad id!")
      (fun st3 i => (st3, i)) (by decide) (by decide)⟩

/-! C10: cache-key discrimination. -/

/-- C10 counterexample.  The key encoding is not injective across the
nocookie flag and the clients override: a request with `nocookie` set and no
override shares its `/stream` cache key (and therefore its in-flight
coalescing key) with a request without `nocookie` whose override list is
exactly `["NC"]` — an override reachable from the query string `?clients=NC`. -/
theorem cacheKey_collision :
    parseClientListParam (some "NC") = some ["NC"]
  ∧ (true, (none : Option (List String))) ≠ (false, some ["NC"])
  ∧ mkStreamKey true none "abcdefghijk" =
      mkStreamKey false (some ["NC"]) "abcdefghijk" := by
  refine ⟨by decide, by decide, by decide⟩

theorem nocookie_key_ne (pre : String) (clients : Option (List String))
    (id : String) :
    pre ++ cacheKeySuffix true clients id ≠
      pre ++ cacheKeySuffix false clients id := by
  intro h
  have e1 : cacheKeySuffix true clients id =
      "NC_" ++ clientsKeyPart clients ++ id := rfl
  have e2 : cacheKeySuffix false clients id =
      "" ++ clientsKeyPart clients ++ id := rfl
  rw [e1, e2] at h
  have hlen := congrArg String.length h
  have h3 : ("NC_" : String).length = 3 := rfl
  have h0 : ("" : String).length = 0 := rfl
  simp only [String.length_append, h3, h0] at hlen
  omega

theorem clients_key_ne (pre : String) (nc : Bool)
    {c1 c2 : Option (List String)} (id : String)
    (h : clientsKeyPart c1 ≠ clientsKeyPart c2) :
    pre ++ cacheKeySuffix nc c1 id ≠ pre ++ cacheKeySuffix nc c2 id := by
  intro he
  apply h
  have hd := congrArg String.data he
  simp only [cacheKeySuffix, String.data_append] at hd
  have h1 := List.append_cancel_left hd
  have h2 := List.append_cancel_right h1
  exact String.ext (List.append_cancel_left h2)

/-- C10 amended.  The cache keys (shared with the in-flight map) textually
incorporate the credential-bypass flag and the clients override: two requests
for the same identifier with the same override but different `nocookie`
always get different keys, and so do two with the same `nocookie` whose
override components encode differently; but the encoding is not injective
across the two fields, so one (flag, override) pair can collide with another
(see the counterexample). -/
theorem cacheKey_amended :
    (∀ (clients : Option (List String)) (id : String),
       mkStreamKey true clients id ≠ mkStreamKey false clients id
       ∧ mkStream480Key true clients id ≠ mkStream480Key false clients id
       ∧ ∀ maxH : Nat,
           mkMp4Key maxH true clients id ≠ mkMp4Key maxH false clients id)
  ∧ (∀ (nc : Bool) (c1 c2 : Option (List String)) (id : String),
       clientsKeyPart c1 ≠ clientsKeyPart c2 →
       mkStreamKey nc c1 id ≠ mkStreamKey nc c2 id
       ∧ mkStream480Key nc c1 id ≠ mkStream480Key nc c2 id
       ∧ ∀ maxH : Nat,
           mkMp4Key maxH nc c1 id ≠ mkMp4Key maxH nc c2 id) := by
  constructor
  · intro clients id
    exact ⟨nocookie_key_ne _ clients id, nocookie_key_ne _ clients id,
      fun maxH => nocookie_key_ne _ clients id⟩
  · intro nc c1 c2 id h
    exact ⟨clients_key_ne _ nc id h, clients_key_ne _ nc id h,
      fun maxH => clients_key_ne _ nc id h⟩

/-- C10 witness: the amended discrimination applied at concrete inputs. -/
theorem cacheKey_amended_witness :
    clientsKeyPart (some ["tv"]) ≠ clientsKeyPart none ∧
    mkStreamKey false (some ["tv"]) "abcdefghijk" ≠
      mkStreamKey false none "abcdefghijk" :=
  ⟨by decide,
    (cacheKey_amended.2 false (some ["tv"]) none "abcdefghijk" (by decide)).1⟩

/-! C6: one-shot credential retry of the resolver invoker. -/

/-- C6.  When a credentialed `-J` invocation fails behind the auth wall, the
invoker performs exactly one automatic re-invocation with credentials
disabled (the invocation trace is `[true, false]` and every trace has length
at most two, so the flag is never flipped twice); and when that retry also
fails behind the auth wall, the caller receives an error carrying the
distinct `AUTH_REQUIRED` code. -/
theorem authRetry_spec (env : SpawnEnv) (client : String)
    (code1 code2 : Option Int) (err1 err2 : String)
    (hcookie : willUseCookiesFor env client true = true)
    (hrun1 : env.execJSON client true = ChildRun.closed code1 "" err1)
    (hc1 : code1 ≠ some 0)
    (hauth1 : isAuthWallError (jsonErrMsg code1 client true err1) = true) :
    (spawnYtDlpJSON env client true).2 = [true, false]
  ∧ (∀ u : Bool, ((spawnYtDlpJSON env client u).2).length ≤ 2)
  ∧ (env.execJSON client false = ChildRun.closed code2 "" err2 →
     code2 ≠ some 0 →
     isAuthWallError (jsonErrMsg code2 client false err2) = true →
     (spawnYtDlpJSON env client true).1 =
       Except.error { message := jsonErrMsg code2 client false err2,
                      code := some "AUTH_REQUIRED" }) := by
  have hb1 : (code1 != some 0) = true := bne_iff_ne.mpr hc1
  have h1 : jsonAttempt env client true =
      JsonAttempt.authWall (jsonErrMsg code1 client true err1) := by
    simp [jsonAttempt, hrun1, hb1, hauth1]
  have hfalse : willUseCookiesFor env client false = false := by
    simp [willUseCookiesFor]
  refine ⟨?_, ?_, ?_⟩
  · cases h2 : jsonAttempt env client false <;>
      simp [spawnYtDlpJSON, hcookie, h1, hfalse, h2]
  · intro u
    simp only [spawnYtDlpJSON]
    cases jsonAttempt env client (willUseCookiesFor env client u) with
    | ok info => simp
    | err e => simp
    | authWall em =>
      by_cases hal : willUseCookiesFor env client u = true
      · cases jsonAttempt env client (willUseCookiesFor env client false) <;>
          simp [hal]
      · simp [hal]
  · intro hrun2 hc2 hauth2
    have hb2 : (code2 != some 0) = true := bne_iff_ne.mpr hc2
    have h2 : jsonAttempt env client false =
        JsonAttempt.authWall (jsonErrMsg code2 client false err2) := by
      simp [jsonAttempt, hrun2, hb2, hauth2]
    simp [spawnYtDlpJSON, hcookie, h1, hfalse, h2]

/-- C6 witness: the retry theorem applied to a cookie-scoped client whose
two runs both fail behind the auth wall. -/
theorem authRetry_spec_witness :
    (spawnYtDlpJSON envAuthRetry "web" true).2 = [true, false] ∧
    (spawnYtDlpJSON envAuthRetry "web" true).1 =
      Except.error (ErrObj.mk
        (jsonErrMsg (some 1) "web" false "Sign in to confirm youre not a bot")
        (some "AUTH_REQUIRED")) :=
  ⟨(authRetry_spec envAuthRetry "web" (some 1) (some 1)
      "Sign in to confirm youre not a bot" "Sign in to confirm youre not a bot"
      (by decide) rfl (by decide) (by decide)).1,
   (authRetry_spec envAuthRetry "web" (some 1) (some 1)
      "Sign in to confirm youre not a bot" "Sign in to confirm youre not a bot"
      (by decide) rfl (by decide) (by decide)).2.2 rfl (by decide) (by decide)⟩

/-! C8: the concurrency gate. -/

theorem tickGate_le (maxc : Nat) :
    ∀ (q : List Nat) (r : Nat) (adm : List Nat), r ≤ maxc →
      (tickGate maxc r q adm).1 ≤ maxc := by
  intro q
  induction q with
  | nil => intro r adm h; simpa [tickGate] using h
  | cons j rest ih =>
    intro r adm h
    by_cases hr : r < maxc
    · simpa [tickGate, hr] using ih (r + 1) (adm ++ [j]) hr
    · simpa [tickGate, hr] using h

theorem tickGate_conserve (maxc : Nat) :
    ∀ (q : List Nat) (r : Nat) (adm : List Nat),
      (tickGate maxc r q adm).2.2 ++ (tickGate maxc r q adm).2.1 = adm ++ q := by
  intro q
  induction q with
  | nil => intro r adm; simp [tickGate]
  | cons j rest ih =>
    intro r adm
    by_cases hr : r < maxc
    · rw [show adm ++ j :: rest = (adm ++ [j]) ++ rest by simp]
      simpa [tickGate, hr] using ih (r + 1) (adm ++ [j])
    · simp [tickGate, hr]

theorem tickGate_stuck (maxc r : Nat) (q adm : List Nat) (h : ¬r < maxc) :
    tickGate maxc r q adm = (r, q, adm) := by
  cases q <;> simp [tickGate, h]

theorem gateReach_invariant (maxc : Nat) :
    ∀ s : GateState, GateReach maxc s →
      s.running ≤ maxc ∧ s.admitted ++ s.queue = s.submitted := by
  intro s h
  induction h with
  | init => simp [initGate]
  | @step s1 s2 e hs hstep ih =>
    cases e with
    | submit =>
      simp only [gateStep] at hstep
      cases hstep
      constructor
      · exact tickGate_le maxc _ _ _ ih.1
      · show (tickGate maxc s1.running (s1.queue ++ [s1.nextId]) s1.admitted).2.2
            ++ (tickGate maxc s1.running (s1.queue ++ [s1.nextId]) s1.admitted).2.1
          = s1.submitted ++ [s1.nextId]
        rw [tickGate_conserve maxc _ _ _, ← List.append_assoc, ih.2]
    | complete ok =>
      simp only [gateStep, gateComplete] at hstep
      by_cases hz : s1.running = 0
      · simp [hz] at hstep
      · simp only [hz, if_false] at hstep
        cases hstep
        constructor
        · exact tickGate_le maxc _ _ _ (Nat.le_trans (Nat.sub_le _ _) ih.1)
        · show (tickGate maxc (s1.running - 1) s1.queue s1.admitted).2.2
              ++ (tickGate maxc (s1.running - 1) s1.queue s1.admitted).2.1
            = s1.submitted
          rw [tickGate_conserve maxc _ _ _, ih.2]

theorem gateSubmit_under (maxc : Nat) (s : GateState) (h : s.running < maxc)
    (hq : s.queue = []) :
    (gateSubmit maxc s).running = s.running + 1 ∧
      (gateSubmit maxc s).queue = [] := by
  simp [gateSubmit, hq, tickGate, h]

theorem gateSubmit_full (maxc : Nat) (s : GateState) (h : ¬s.running < maxc) :
    (gateSubmit maxc s).running = s.running ∧
      (gateSubmit maxc s).queue = s.queue ++ [s.nextId] := by
  simp [gateSubmit, tickGate_stuck maxc _ _ _ h]

theorem submitN_spec (maxc : Nat) :
    ∀ (n : Nat) (s : GateState), s.running ≤ maxc →
      (s.running < maxc → s.queue = []) →
      (submitN maxc n s).running = min (s.running + n) maxc ∧
      (submitN maxc n s).queue.length =
        s.queue.length + ((s.running + n) - min (s.running + n) maxc) := by
  intro n
  induction n with
  | zero =>
    intro s h1 _h2
    simp only [submitN]
    constructor
    · omega
    · omega
  | succ n ih =>
    intro s h1 h2
    simp only [submitN]
    by_cases hr : s.running < maxc
    · obtain ⟨hrun, hque⟩ := gateSubmit_under maxc s hr (h2 hr)
      have hih := ih (gateSubmit maxc s) (by omega) (fun _ => hque)
      rw [hrun, hque] at hih
      simp only [List.length_nil] at hih
      rw [h2 hr]
      simp only [List.length_nil]
      constructor
      · rw [hih.1]; omega
      · rw [hih.2]; omega
    · obtain ⟨hrun, hque⟩ := gateSubmit_full maxc s hr
      have hih := ih (gateSubmit maxc s) (by omega) (by omega)
      rw [hrun, hque] at hih
      simp only [List.length_append, List.length_cons, List.length_nil] at hih
      constructor
      · rw [hih.1]; omega
      · rw [hih.2]; omega

/-- C8.  The gate never lets `running` exceed `MAX_YTDLP`, admits in strict
FIFO arrival order (the admission history followed by the queue is always
exactly the submission history), treats success and failure completions
identically, decrements `running` on a completion with an empty queue, and a
burst of `MAX_YTDLP + K` submissions from idle leaves exactly `K` tasks
queued at peak with `running` saturated. -/
theorem gate_spec (raw : Nat) :
    (∀ s : GateState, GateReach (maxYtDlpOf raw) s →
       s.running ≤ maxYtDlpOf raw)
  ∧ (∀ s : GateState, GateReach (maxYtDlpOf raw) s →
       s.admitted ++ s.queue = s.submitted)
  ∧ (∀ (s : GateState) (ok : Bool),
       gateStep (maxYtDlpOf raw) s (GateEvent.complete ok) =
         gateStep (maxYtDlpOf raw) s (GateEvent.complete true))
  ∧ (∀ (s s2 : GateState) (ok : Bool),
       gateStep (maxYtDlpOf raw) s (GateEvent.complete ok) = some s2 →
       s.queue = [] → s2.running = s.running - 1)
  ∧ (∀ K : Nat,
       (submitN (maxYtDlpOf raw) (maxYtDlpOf raw + K) initGate).running =
         maxYtDlpOf raw ∧
       (submitN (maxYtDlpOf raw) (maxYtDlpOf raw + K) initGate).queue.length =
         K) := by
  refine ⟨?_, ?_, ?_, ?_, ?_⟩
  · intro s h; exact (gateReach_invariant _ s h).1
  · intro s h; exact (gateReach_invariant _ s h).2
  · intro s ok; rfl
  · intro s s2 ok hstep hq
    simp only [gateStep, gateComplete] at hstep
    by_cases hz : s.running = 0
    · simp [hz] at hstep
    · simp only [hz, if_false] at hstep
      cases hstep
      show (tickGate (maxYtDlpOf raw) (s.running - 1) s.queue s.admitted).1
        = s.running - 1
      rw [hq]
      rfl
  · intro K
    have h := submitN_spec (maxYtDlpOf raw) (maxYtDlpOf raw + K) initGate
      (by simp [initGate]) (by simp [initGate])
    have h0 : initGate.running = 0 := rfl
    have hq0 : initGate.queue.length = 0 := rfl
    rw [h0, hq0] at h
    exact ⟨by rw [h.1]; omega, by rw [h.2]; omega⟩

/-- C8 witness: the gate theorem applied at a concrete configuration
(`raw = 4`, burst of `MAX_YTDLP + 2`). -/
theorem gate_spec_witness :
    initGate.running ≤ maxYtDlpOf 4 ∧
    (submitN (maxYtDlpOf 4) (maxYtDlpOf 4 + 2) initGate).running =
      maxYtDlpOf 4 ∧
    (submitN (maxYtDlpOf 4) (maxYtDlpOf 4 + 2) initGate).queue.length = 2 :=
  ⟨(gate_spec 4).1 initGate GateReach.init,
    ((gate_spec 4).2.2.2.2 2).1, ((gate_spec 4).2.2.2.2 2).2⟩

/-! C1: in-flight coalescing. -/

/-- Inductive invariant of the coalescer: before the computation settles no
deletion can have happened (the entry persists), and the number of started
resolutions never exceeds the deletions performed plus one for a live
entry. -/
def CoInv (s : CoState) : Prop :=
  (s.settled = false → s.deletePending = false ∧ s.deletions = 0)
  ∧ s.resolutions ≤ s.deletions + (if s.inflightPresent then 1 else 0)

theorem coReach_invariant (n : Nat) :
    ∀ s : CoState, CoReach n s → CoInv s := by
  intro s h
  induction h with
  | init => simp [CoInv, coInit]
  | @step s1 s2 e hs hstep ih =>
    obtain ⟨ih1, ih2⟩ := ih
    cases e with
    | callerCheck =>
      unfold coStep at hstep
      cases hp : s1.pendingCallers with
      | zero => rw [hp] at hstep; simp at hstep
      | succ m =>
        rw [hp] at hstep
        by_cases hc : s1.cachePopulated = true
        · simp only [hc, if_true] at hstep
          cases hstep
          exact ⟨ih1, ih2⟩
        · rw [Bool.not_eq_true] at hc
          by_cases hi : s1.inflightPresent = true
          · simp only [hc, hi, Bool.false_eq_true, if_false, if_true] at hstep
            cases hstep
            refine ⟨fun h => ih1 h, ?_⟩
            rw [hi] at ih2
            simpa using ih2
          · rw [Bool.not_eq_true] at hi
            simp only [hc, hi, Bool.false_eq_true, if_false] at hstep
            cases hstep
            refine ⟨fun hset => ih1 hset, ?_⟩
            rw [hi] at ih2
            simp at ih2
            simp
            omega
    | settle ok =>
      unfold coStep at hstep
      by_cases hcond : (s1.started && !s1.settled) = true
      · simp only [hcond, if_true] at hstep
        cases hstep
        exact ⟨fun hset => by simp at hset, ih2⟩
      · simp [hcond] at hstep
    | deferredDelete =>
      unfold coStep at hstep
      by_cases hd : s1.deletePending = true
      · simp only [hd, if_true] at hstep
        cases hstep
        constructor
        · intro hset
          have := ih1 hset
          rw [hd] at this
          exact absurd this.1 (by simp)
        · simp only
          by_cases hi : s1.inflightPresent = true <;> simp [hi] at ih2 ⊢ <;> omega
      · simp [hd] at hstep
    | resume =>
      unfold coStep at hstep
      cases hw : s1.waiting with
      | zero => rw [hw] at hstep; simp at hstep
      | succ m =>
        rw [hw] at hstep
        by_cases hset : s1.settled = true
        · simp only [hset, if_true] at hstep
          cases hstep
          exact ⟨fun h => by simp at h, ih2⟩
        · simp [hset] at hstep

/-- C1 counterexample.  In the cooperative-scheduling model of the handler,
the in-flight entry is deleted by a deferred zero-delay timer, not
synchronously at settlement: there is a valid trace in which the computation
has settled (here: failed), the entry is still present, and a subsequent
caller re-checks the map, observing the settled entry and joining it.  This
refutes the claim that removal happens before any subsequent caller can
re-check the in-flight map. -/
theorem coalescer_claim_counterexample :
    coExec (coInit 2) [CoEvent.callerCheck, CoEvent.settle false] = some coCexMid
  ∧ coCexMid.settled = true ∧ coCexMid.inflightPresent = true
  ∧ coCexMid.pendingCallers = 1
  ∧ coStep coCexMid CoEvent.callerCheck = some coCexEnd
  ∧ coCexEnd.waiting = 2 ∧ coCexEnd.resolutions = 1 := by decide

/-- C1 amended.  For every key, concurrent callers coalesce: in every
reachable state of the model, while the shared computation has not settled at
most one resolution has been started, and no deletion has occurred; a caller
that re-checks while an entry is present (settled or not) joins it and never
starts a new resolution.  Removal of the entry is deferred to a zero-delay
timer after settlement rather than happening before any subsequent
re-check. -/
theorem coalescer_amended :
    (∀ (n : Nat) (s : CoState), CoReach n s → s.settled = false →
       s.resolutions ≤ 1)
  ∧ (∀ (s s2 : CoState), s.inflightPresent = true →
       coStep s CoEvent.callerCheck = some s2 →
       s2.resolutions = s.resolutions)
  ∧ (∀ (n : Nat) (s : CoState), CoReach n s → s.settled = false →
       s.deletions = 0) := by
  refine ⟨?_, ?_, ?_⟩
  · intro n s hr hset
    obtain ⟨h1, h2⟩ := coReach_invariant n s hr
    have hdel := (h1 hset).2
    rw [hdel] at h2
    by_cases hi : s.inflightPresent = true <;> simp [hi] at h2 <;> omega
  · intro s s2 hi hstep
    unfold coStep at hstep
    cases hw : s.pendingCallers with
    | zero => rw [hw] at hstep; simp at hstep
    | succ m =>
      rw [hw] at hstep
      by_cases hc : s.cachePopulated = true
      · simp only [hc, if_true] at hstep
        cases hstep
        rfl
      · rw [Bool.not_eq_true] at hc
        simp only [hc, hi, Bool.false_eq_true, if_false, if_true] at hstep
        cases hstep
        rfl
  · intro n s hr hset
    exact ((coReach_invariant n s hr).1 hset).2

/-- C1 witness: the coalescing bound applied to the reachable state in which
one caller has started the single resolution. -/
theorem coalescer_amended_witness :
    coWitState.settled = false ∧ coWitState.resolutions ≤ 1 :=
  ⟨rfl, coalescer_amended.1 2 coWitState
    (@CoReach.step 2 (coInit 2) coWitState CoEvent.callerCheck
      CoReach.init (by decide)) rfl⟩

/-! C7: the single-URL fallback of the prober. -/

/-- C7 counterexample.  Every structured probe fails with an
`AUTH_REQUIRED`-classified error, every `-g` fallback attempt fails with a
generic error; the surfaced aggregate error carries no `AUTH_REQUIRED`
code, because the structured-phase `Promise.any` rejection is an
`AggregateError` without a `code` property — contradicting the claim that
any auth-classified contributing failure makes the aggregate
`AUTH_REQUIRED`. -/
theorem proberAggregate_counterexample :
    probeJSON envProbeAuth "tv" true =
      Except.error (ErrObj.mk
        (jsonErrMsg (some 1) "tv" false "Sign in to confirm youre not a bot")
        (some "AUTH_REQUIRED"))
  ∧ fetchInfoFallback envProbeAuth "abcdefghijk" ["tv"] false =
      Except.error (ErrObj.mk
        (gErrMsg (some 1) "tv" false "network unreachable") none)
  ∧ (ErrObj.mk (gErrMsg (some 1) "tv" false "network unreachable")
      none).code ≠ some "AUTH_REQUIRED" :=
  ⟨rfl, rfl, by simp⟩

theorem bestUrlLoop_first_success (env : SpawnEnv) (w : Bool) :
    ∀ (cs1 : List String) (c : String) (cs2 : List String)
      (authHit : Bool) (lastErr : Option ErrObj) (u : String),
      (∀ p ∈ cs1, ∃ e, (spawnYtDlpBestUrl env p w).1 = Except.error e) →
      (spawnYtDlpBestUrl env c w).1 = Except.ok u →
      bestUrlLoop env w (cs1 ++ c :: cs2) authHit lastErr =
        Except.ok (u, c) := by
  intro cs1
  induction cs1 with
  | nil =>
    intro c cs2 ah le u _ hok
    simp [bestUrlLoop, hok]
  | cons p rest ih =>
    intro c cs2 ah le u hfail hok
    obtain ⟨e, he⟩ := hfail p (List.mem_cons_self p rest)
    simp only [List.cons_append, bestUrlLoop, he]
    exact ih c cs2 _ _ u (fun q hq => hfail q (List.mem_cons_of_mem p hq)) hok

theorem bestUrlLoop_all_fail (env : SpawnEnv) (w : Bool) :
    ∀ (cs : List String) (authHit : Bool) (lastErr : Option ErrObj),
      (∀ c ∈ cs, ∃ e, (spawnYtDlpBestUrl env c w).1 = Except.error e) →
      (∀ e0, lastErr = some e0 → e0.code = some "AUTH_REQUIRED" →
        authHit = true) →
      ∃ e, bestUrlLoop env w cs authHit lastErr = Except.error e ∧
        (e.code = some "AUTH_REQUIRED" ↔
          (authHit = true ∨ ∃ c ∈ cs, ∃ e2,
            (spawnYtDlpBestUrl env c w).1 = Except.error e2 ∧
            e2.code = some "AUTH_REQUIRED")) := by
  intro cs
  induction cs with
  | nil =>
    intro ah le hfail hle
    by_cases hah : ah = true
    · refine ⟨ErrObj.mk "Auth required" (some "AUTH_REQUIRED"),
        by simp [bestUrlLoop, hah], ?_⟩
      simp [hah]
    · rw [Bool.not_eq_true] at hah
      cases le with
      | none =>
        refine ⟨ErrObj.mk "Failed to resolve best URL" none,
          by simp [bestUrlLoop, hah], ?_⟩
        simp [hah]
      | some e0 =>
        refine ⟨e0, by simp [bestUrlLoop, hah], ?_⟩
        constructor
        · intro hc
          exact absurd (hle e0 rfl hc) (by simp [hah])
        · rintro (h | ⟨c, hc, _⟩)
          · exact absurd h (by simp [hah])
          · exact absurd hc (List.not_mem_nil c)
  | cons c rest ih =>
    intro ah le hfail hle
    obtain ⟨e, he⟩ := hfail c (List.mem_cons_self c rest)
    have hstep : bestUrlLoop env w (c :: rest) ah le =
        bestUrlLoop env w rest (ah || (e.code == some "AUTH_REQUIRED"))
          (some e) := by
      simp [bestUrlLoop, he]
    obtain ⟨efin, hefin, hiff⟩ :=
      ih (ah || (e.code == some "AUTH_REQUIRED")) (some e)
        (fun q hq => hfail q (List.mem_cons_of_mem c hq))
        (by
          intro e0 he0 hcode
          injection he0 with he0
          subst he0
          simp [hcode])
    refine ⟨efin, hstep ▸ hefin, ?_⟩
    rw [hiff]
    simp only [Bool.or_eq_true, beq_iff_eq]
    constructor
    · rintro ((hah | hcode) | ⟨q, hq, e2, he2, hc2⟩)
      · exact Or.inl hah
      · exact Or.inr ⟨c, List.mem_cons_self c rest, e, he, hcode⟩
      · exact Or.inr ⟨q, List.mem_cons_of_mem c hq, e2, he2, hc2⟩
    · rintro (hah | ⟨q, hq, e2, he2, hc2⟩)
      · exact Or.inl (Or.inl hah)
      · rcases List.mem_cons.mp hq with rfl | hq2
        · rw [he] at he2
          injection he2 with he2
          subst he2
          exact Or.inl (Or.inr hc2)
        · exact Or.inr ⟨q, hq2, e2, he2, hc2⟩

/-- C7 amended.  When every structured-mode probe fails, the prober runs the
single-URL fallback through the profiles in priority order and returns the
first success; when every profile's fallback also fails, the aggregate error
carries `AUTH_REQUIRED` exactly when at least one single-URL fallback attempt
was classified `AUTH_REQUIRED`.  Auth classifications from the
structured-phase probes do not influence the aggregate, because the
structured phase rejects with an `AggregateError` that carries no code. -/
theorem proberFallback_amended :
    (∀ (env : SpawnEnv) (id : String) (cs1 : List String) (c : String)
       (cs2 : List String) (nocookie : Bool) (u : String),
       (∀ p ∈ cs1, ∃ e,
         (spawnYtDlpBestUrl env p (!nocookie)).1 = Except.error e) →
       (spawnYtDlpBestUrl env c (!nocookie)).1 = Except.ok u →
       fetchInfoFallback env id (cs1 ++ c :: cs2) nocookie =
         Except.ok (mkDirectInfo id u, "best-url:" ++ c))
  ∧ (∀ (env : SpawnEnv) (id : String) (clients : List String)
       (nocookie : Bool),
       (∀ c ∈ clients, ∃ e,
         (spawnYtDlpBestUrl env c (!nocookie)).1 = Except.error e) →
       ∃ e, fetchInfoFallback env id clients nocookie = Except.error e ∧
         (e.code = some "AUTH_REQUIRED" ↔
           ∃ c ∈ clients, ∃ e2,
             (spawnYtDlpBestUrl env c (!nocookie)).1 = Except.error e2 ∧
             e2.code = some "AUTH_REQUIRED")) := by
  constructor
  · intro env id cs1 c cs2 nocookie u hfail hok
    have hloop := bestUrlLoop_first_success env (!nocookie) cs1 c cs2
      false none u hfail hok
    simp [fetchInfoFallback, spawnBestUrlAnyClient, hloop]
  · intro env id clients nocookie hfail
    obtain ⟨eg, heg, hiffg⟩ := bestUrlLoop_all_fail env (!nocookie) clients
      false none hfail (by intro e0 h; exact absurd h (by simp))
    have hg : spawnBestUrlAnyClient env clients nocookie = Except.error eg :=
      heg
    rw [show (false = true ∨ ∃ c ∈ clients, ∃ e2,
        (spawnYtDlpBestUrl env c (!nocookie)).1 = Except.error e2 ∧
        e2.code = some "AUTH_REQUIRED") ↔
        (∃ c ∈ clients, ∃ e2,
          (spawnYtDlpBestUrl env c (!nocookie)).1 = Except.error e2 ∧
          e2.code = some "AUTH_REQUIRED") by simp] at hiffg
    by_cases hA : eg.code = some "AUTH_REQUIRED"
    · refine ⟨ErrObj.mk "Auth required" (some "AUTH_REQUIRED"), ?_, ?_⟩
      · simp [fetchInfoFallback, hg, hA]
      · simpa using hiffg.mp hA
    · refine ⟨eg, ?_, ?_⟩
      · have hbeq : (eg.code == some "AUTH_REQUIRED") = false := by
          simpa using hA
        simp [fetchInfoFallback, hg, hbeq]
      · rw [← hiffg]

/-- C7 witness: with the first profile's fallback failing and the second
succeeding, the prober surfaces the second profile's direct URL. -/
theorem proberFallback_amended_witness :
    fetchInfoFallback envFallbackMix "abcdefghijk" (["tv"] ++ "android" :: [])
      false =
    Except.ok (mkDirectInfo "abcdefghijk" "https://cdn.example/video.mp4",
      "best-url:" ++ "android") :=
  proberFallback_amended.1 envFallbackMix "abcdefghijk" ["tv"] "android" []
    false "https://cdn.example/video.mp4"
    (by
      intro p hp
      have hpt : p = "tv" := by simpa using hp
      subst hpt
      exact ⟨ErrObj.mk (gErrMsg (some 1) "tv" false "network unreachable")
        none, rfl⟩)
    rfl

end YtSvc
